import Mathlib

/-!
Verification of the BOM component resolution pipeline of the `hw` repository.

The development shallowly embeds the pipeline's pure core:

* `src/hw/circuits/query.py` — query sanitisation, EIA code extraction and
  `build_search_query`;
* `src/hw/circuits/resolver.py` — `package_matches_eia`,
  `infer_package_from_mpn` and `filter_candidates` (the shop path);
* `src/hw/circuits/jlcpcb/bom_lookup/resolver.py` — `_score_candidate` and
  `resolve_part` (the JLCPCB path);
* `src/hw/circuits/jlcpcb/bom_lookup/models.py` — `MIN_STOCK` and the
  declared field list of `JlcpcbSearchResult`.

Modelling conventions:

* Python strings are Lean `String`s; all string algorithms are implemented
  over `String.data` (`List Char`).
* Python regular expressions are implemented either directly (anchored
  scans with explicit boundary checks) or through a small backtracking
  regex interpreter (`Re.run`) whose patterns mirror the source pattern
  strings constructor by constructor.  The interpreter is fuel-bounded;
  the fuel is sized generously and no theorem below depends on the value
  of the fuel.
* Python floats are idealised as exact real numbers (`ℝ`), so
  `math.log10` becomes `Real.logb 10` and float literals become exact
  rationals.  Parsed prices and current ratings are kept in `ℚ`.
* `resolve_part` reads `candidate.category`, and the JLCPCB client and the
  repository's unit tests construct candidates carrying `category` and
  `discontinued` values, while `models.py` omits both fields from the
  pydantic model (see `jlcpcbModelDeclaredFields` below).  The record type
  used here carries the fields the resolver and client require.
* Python's `max(xs, key=f)` on an empty list raises `ValueError`; the
  embedding returns the otherwise unreachable pair `(none, none)` in that
  case, and the outcome-dichotomy theorem proves the case unreachable.
-/

namespace Hw

/-! ## Basic character and string helpers -/

/-- Python whitespace for `str.strip` and the regex class `\s` (ASCII). -/
def pyWs (c : Char) : Bool :=
  c = ' ' || c = '\t' || c = '\n' || c = '\r' || c = '\x0b' || c = '\x0c'

/-- ASCII decimal digit, the regex class `\d`. -/
def isDigitC (c : Char) : Bool := '0' ≤ c && c ≤ '9'

/-- Regex class `\w` (ASCII approximation of Python word characters). -/
def isWordC (c : Char) : Bool := c.isAlpha || isDigitC c || c = '_'

/-- Regex class `[\w-]`. -/
def isWordDashC (c : Char) : Bool := isWordC c || c = '-'

/-- Regex class `[A-Z]`. -/
def isAsciiUpperC (c : Char) : Bool := 'A' ≤ c && c ≤ 'Z'

/-- Regex class `[A-Z0-9]`. -/
def isUpperOrDigitC (c : Char) : Bool := isAsciiUpperC c || isDigitC c

/-- Python `str.lower` (ASCII). -/
def lowerStr (s : String) : String := String.mk (s.data.map Char.toLower)

/-- Python `str.upper` (ASCII). -/
def upperStr (s : String) : String := String.mk (s.data.map Char.toUpper)

/-- Substring test on character lists: Python's `needle in haystack`. -/
def isSubstrL (needle : List Char) : List Char → Bool
  | [] => needle.isPrefixOf []
  | c :: rest => needle.isPrefixOf (c :: rest) || isSubstrL needle rest

/-- Substring test on strings: Python's `needle in haystack`. -/
def isSubstr (needle haystack : String) : Bool :=
  isSubstrL needle.data haystack.data

/-- Python `haystack.startswith(needle)`. -/
def strStartsWith (s pre : String) : Bool := pre.data.isPrefixOf s.data

/-- Single-character membership, Python's `'@' in s`. -/
def charIn (c : Char) (s : String) : Bool := s.data.contains c

/-- Python truthiness of an optional string (`None` and `""` are falsy). -/
def pyTruthy : Option String → Bool
  | none => false
  | some s => !s.isEmpty

/-- Value of a decimal digit character. -/
def digitVal (c : Char) : Nat := c.toNat - '0'.toNat

/-- Python `int` on a string of decimal digits. -/
def digitsToNat (l : List Char) : Nat := l.foldl (fun a c => a * 10 + digitVal c) 0

/-- Python `float` on a string matched by `\d+\.?\d*`, as an exact rational. -/
def parseDec (l : List Char) : ℚ :=
  let ip := l.takeWhile isDigitC
  let rest := l.dropWhile isDigitC
  match rest with
  | '.' :: fr => (digitsToNat ip : ℚ) + (digitsToNat fr : ℚ) / ((10 : ℚ) ^ fr.length)
  | _ => (digitsToNat ip : ℚ)

/-! ## Query sanitisation (`query.py::_sanitize_query`) -/

/-- Strip Python whitespace from both ends of a character list. -/
def pyStripL (l : List Char) : List Char :=
  ((l.dropWhile pyWs).reverse.dropWhile pyWs).reverse

/-- Worker for `collapseWs`: the flag records whether the scan is inside
a whitespace run (whose single replacement space was already emitted). -/
def collapseWsAux : Bool → List Char → List Char
  | _, [] => []
  | inRun, c :: rest =>
    if pyWs c then
      if inRun then collapseWsAux true rest
      else ' ' :: collapseWsAux true rest
    else c :: collapseWsAux false rest

/-- Replace each maximal run of `\s` characters with a single space:
`re.sub(r"\s+", " ", q)`. -/
def collapseWs (l : List Char) : List Char := collapseWsAux false l

/-- `_sanitize_query`: strip, map `@`, `/`, `\` to spaces, collapse
whitespace runs, strip again. -/
def sanitizeQuery (comment : String) : String :=
  let q1 := pyStripL comment.data
  let q2 := q1.map fun c => if c = '@' || c = '/' || c = '\\' then ' ' else c
  String.mk (pyStripL (collapseWs q2))

/-! ## EIA code extraction (`query.py::_eia_from_footprint`) -/

/-- The `EIA_CODES` frozenset from `query.py`. -/
def EIA_CODES : List String :=
  ["0201", "0402", "0603", "0805", "1206", "1210", "1812",
   "2010", "2512", "1008", "1806", "2816", "0504"]

/-- Non-overlapping left-to-right matches of `\d{4}` (`re.findall`). -/
def fourDigitRuns : List Char → List String
  | c1 :: c2 :: c3 :: c4 :: rest =>
    if isDigitC c1 && isDigitC c2 && isDigitC c3 && isDigitC c4 then
      String.mk [c1, c2, c3, c4] :: fourDigitRuns rest
    else
      fourDigitRuns (c2 :: c3 :: c4 :: rest)
  | _ => []

/-- `eia_from_footprint`: first `\d{4}` run that is a member of
`EIA_CODES`, else `none`. -/
def eia_from_footprint (footprint : String) : Option String :=
  (fourDigitRuns footprint.data).find? fun code => EIA_CODES.contains code

/-! ## Package matching (`resolver.py::package_matches_eia`) -/

/-- One step of the search for `(?<![0-9])code(?![0-9])`: does the token
occur at the head of `s`, with the previous character (if any) and the
character following the token (if any) both non-digits? -/
def tokenHere (code : List Char) (prev : Option Char) (s : List Char) : Bool :=
  code.isPrefixOf s &&
    (match prev with | none => true | some p => !isDigitC p) &&
    (match s.drop code.length with | [] => true | c :: _ => !isDigitC c)

/-- Scan of `re.search(r"(?<![0-9])code(?![0-9])", s)`. -/
def tokenScan (code : List Char) (prev : Option Char) : List Char → Bool
  | [] => tokenHere code prev []
  | c :: rest => tokenHere code prev (c :: rest) || tokenScan code (some c) rest

/-- `package_matches_eia`: `False` on a falsy package, else the bounded
substring search above. -/
def package_matches_eia (package : Option String) (eia_code : String) : Bool :=
  match package with
  | none => false
  | some p => if p.isEmpty then false else tokenScan eia_code.data none p.data

/-! ## A small backtracking regex interpreter

Patterns below transcribe the source's `re` pattern strings constructor by
constructor.  Greedy and lazy quantifiers follow Python's backtracking
order.  `grp` records the single capturing group a pattern may contain.
`nla` is a single-character negative lookahead and `wb` is `\b`; both are
all the source patterns need.  The interpreter threads the previously
consumed character so that `\b` can be decided mid-string. -/

inductive Re where
  | eps : Re
  | cls : (Char → Bool) → Re
  | nla : (Char → Bool) → Re
  | wb : Re
  | seq : Re → Re → Re
  | alt : Re → Re → Re
  | opt : Bool → Re → Re
  | star : Bool → Re → Re
  | grp : Re → Re

namespace Re

/-- Literal string pattern. -/
def lit (cs : List Char) : Re := cs.foldr (fun c r => seq (cls fun d => d = c) r) eps

/-- Concatenation of a pattern list. -/
def cat (rs : List Re) : Re := rs.foldr seq eps

/-- Greedy `+`. -/
def plus (r : Re) : Re := seq r (star false r)

/-- Lazy `+?`. -/
def lazyPlus (r : Re) : Re := seq r (star true r)

/-- Structural size, used to bound the interpreter's fuel. -/
def size : Re → Nat
  | eps => 1
  | cls _ => 1
  | nla _ => 1
  | wb => 1
  | seq a b => size a + size b + 1
  | alt a b => size a + size b + 1
  | opt _ a => size a + 1
  | star _ a => size a + 2
  | grp a => size a + 1

/-- Fuel-bounded backtracking run.  `prev` is the character before the
current position (for `\b`), `cap` the capture recorded so far, and `k`
the success continuation.  Each `star` iteration must consume input. -/
def run : Nat → Re → Option Char → List Char → Option (List Char) →
    (Option Char → List Char → Option (List Char) → Option (Option (List Char))) →
    Option (Option (List Char))
  | 0, _, _, _, _, _ => none
  | _ + 1, eps, prev, s, cap, k => k prev s cap
  | _ + 1, cls _, _, [], _, _ => none
  | _ + 1, cls p, _, c :: s, cap, k => if p c then k (some c) s cap else none
  | _ + 1, nla p, prev, s, cap, k =>
    match s with
    | [] => k prev s cap
    | c :: _ => if p c then none else k prev s cap
  | _ + 1, wb, prev, s, cap, k =>
    let lw := match prev with | some c => isWordC c | none => false
    let rw := match s with | c :: _ => isWordC c | [] => false
    if lw ≠ rw then k prev s cap else none
  | n + 1, seq a b, prev, s, cap, k =>
    run n a prev s cap fun prev2 s2 cap2 => run n b prev2 s2 cap2 k
  | n + 1, alt a b, prev, s, cap, k =>
    (run n a prev s cap k).orElse fun _ => run n b prev s cap k
  | n + 1, opt lz a, prev, s, cap, k =>
    if lz then (k prev s cap).orElse fun _ => run n a prev s cap k
    else (run n a prev s cap k).orElse fun _ => k prev s cap
  | n + 1, star lz a, prev, s, cap, k =>
    let go := run n a prev s cap fun prev2 s2 cap2 =>
      if s2.length < s.length then run n (star lz a) prev2 s2 cap2 k else none
    if lz then (k prev s cap).orElse fun _ => go
    else go.orElse fun _ => k prev s cap
  | n + 1, grp a, prev, s, cap, _k =>
    run n a prev s cap fun prev2 s2 _ =>
      _k prev2 s2 (some (s.take (s.length - s2.length)))

/-- Fuel that is always sufficient for the shallow patterns used here. -/
def fuel (r : Re) (s : List Char) : Nat := (size r + 2) * (s.length + 2) * 4

/-- Match anchored at the current position (`re.match` when `prev = none`).
Returns `some cap` on success. -/
def matchAt (r : Re) (prev : Option Char) (s : List Char) :
    Option (Option (List Char)) :=
  run (fuel r s) r prev s none fun _ _ cap => some cap

/-- `re.search`: leftmost match, scanning start positions left to right. -/
def searchFrom (r : Re) (prev : Option Char) : List Char → Option (Option (List Char))
  | [] => matchAt r prev []
  | c :: rest =>
    match matchAt r prev (c :: rest) with
    | some cap => some cap
    | none => searchFrom r (some c) rest

end Re

/-! ## Connector queries (`query.py::_build_connector_query`) -/

/-- `JST_[A-Z]+_([\w-]+?)_\d+x\d+`. -/
def jstRe : Re :=
  Re.cat [Re.lit "JST_".data, Re.plus (Re.cls isAsciiUpperC), Re.lit "_".data,
    Re.grp (Re.lazyPlus (Re.cls isWordDashC)), Re.lit "_".data,
    Re.plus (Re.cls isDigitC), Re.lit "x".data, Re.plus (Re.cls isDigitC)]

/-- `USB_C_Receptacle_\w+_([\w-]+)`. -/
def usbCRe : Re :=
  Re.cat [Re.lit "USB_C_Receptacle_".data, Re.plus (Re.cls isWordC),
    Re.lit "_".data, Re.grp (Re.plus (Re.cls isWordDashC))]

/-- `USB_[A-Z]+_\w+_\w+_([\w-]+)`. -/
def usbGenRe : Re :=
  Re.cat [Re.lit "USB_".data, Re.plus (Re.cls isAsciiUpperC), Re.lit "_".data,
    Re.plus (Re.cls isWordC), Re.lit "_".data, Re.plus (Re.cls isWordC),
    Re.lit "_".data, Re.grp (Re.plus (Re.cls isWordDashC))]

/-- Orientation keyword of a pin-header footprint. -/
inductive PhOrient where
  | vertical
  | horizontal
deriving DecidableEq

/-- Lowercased orientation word, Python's `orient.lower()`. -/
def PhOrient.lower : PhOrient → String
  | .vertical => "vertical"
  | .horizontal => "horizontal"

/-- Deterministic parser for
`PinHeader_(\d+)x(\d+)_P([\d.]+)mm(?:_(Vertical|Horizontal))?` applied
with `re.match` (every character class is disjoint from the literal that
follows it, so greedy scanning is exact).  Returns
`(rows, cols, pitch digits, orientation)`. -/
def parsePinHeader (footprint : String) : Option (Nat × Nat × String × Option PhOrient) :=
  let s := footprint.data
  if "PinHeader_".data.isPrefixOf s then
    let s1 := s.drop 10
    let d1 := s1.takeWhile isDigitC
    let r1 := s1.dropWhile isDigitC
    if d1.isEmpty then none else
    match r1 with
    | 'x' :: r2 =>
      let d2 := r2.takeWhile isDigitC
      let r3 := r2.dropWhile isDigitC
      if d2.isEmpty then none else
      match r3 with
      | '_' :: 'P' :: r4 =>
        let pd := r4.takeWhile fun c => isDigitC c || c = '.'
        let r5 := r4.dropWhile fun c => isDigitC c || c = '.'
        if pd.isEmpty then none else
        if "mm".data.isPrefixOf r5 then
          let r6 := r5.drop 2
          let orient :=
            if "_Vertical".data.isPrefixOf r6 then some PhOrient.vertical
            else if "_Horizontal".data.isPrefixOf r6 then some PhOrient.horizontal
            else none
          some (digitsToNat d1, digitsToNat d2, String.mk pd, orient)
        else none
      | _ => none
    | _ => none
  else none

/-- `_build_connector_query`: JST, USB-C, generic USB, pin header, then
fall back to the sanitised value. -/
def buildConnectorQuery (value footprint : String) : String :=
  match Re.matchAt jstRe none footprint.data with
  | some cap => String.mk (cap.getD [])
  | none =>
    match Re.matchAt usbCRe none footprint.data with
    | some cap => String.mk (cap.getD [])
    | none =>
      match Re.matchAt usbGenRe none footprint.data with
      | some cap => String.mk (cap.getD [])
      | none =>
        match parsePinHeader footprint with
        | some (rows, cols, pitch, orient) =>
          let pins := rows * cols
          let orientWord := match orient with
            | some o => " " ++ o.lower
            | none => ""
          pitch ++ "mm " ++ Nat.repr pins ++ " pin header" ++ orientWord
        | none => sanitizeQuery value

/-! ## Query building (`query.py::build_search_query`) -/

/-- `_is_ferrite_bead`: inductor footprint plus `@` in the value. -/
def is_ferrite_bead (value footprint : String) : Bool :=
  strStartsWith footprint "L_" && charIn '@' value

/-- The `_CONNECTOR_PREFIXES` tuple. -/
def connectorPrefixList : List String :=
  ["JST_", "USB_", "PinHeader_", "Conn_", "Molex_"]

/-- `^\d+\.?\d*$` on the sanitised value (bare number test). -/
def isBareNumber (s : String) : Bool :=
  let l := s.data
  let ip := l.takeWhile isDigitC
  let rest := l.dropWhile isDigitC
  !ip.isEmpty &&
    (match rest with
     | [] => true
     | '.' :: fr => fr.all isDigitC
     | _ => false)

/-- `build_search_query(value, footprint)` from `query.py`. -/
def build_search_query (value footprint : String) : String :=
  if is_ferrite_bead value footprint then
    sanitizeQuery value ++ " ferrite bead"
  else if connectorPrefixList.any fun p => strStartsWith footprint p then
    buildConnectorQuery value footprint
  else if strStartsWith footprint "Fuse_" then
    let base := sanitizeQuery value
    let suffix :=
      match eia_from_footprint footprint with
      | some eia => if !isSubstr eia base then " " ++ eia else ""
      | none => ""
    base ++ " fuse" ++ suffix
  else
    let base0 := sanitizeQuery value
    let base :=
      if strStartsWith footprint "R_" && isBareNumber base0 then base0 ++ "ohm"
      else base0
    match eia_from_footprint footprint with
    | some eia => if !isSubstr eia base then base ++ " " ++ eia else base
    | none => base

/-- Follows the spec's non-duplication wording for the query builder: the
same routing as `build_search_query`, but the EIA code token is never
appended.  Used to state that `build_search_query` performs no append when
the sanitised value already contains the code. -/
def buildSearchQueryNoDup (value footprint : String) : String :=
  if is_ferrite_bead value footprint then
    sanitizeQuery value ++ " ferrite bead"
  else if connectorPrefixList.any fun p => strStartsWith footprint p then
    buildConnectorQuery value footprint
  else if strStartsWith footprint "Fuse_" then
    sanitizeQuery value ++ " fuse"
  else
    let base0 := sanitizeQuery value
    if strStartsWith footprint "R_" && isBareNumber base0 then base0 ++ "ohm"
    else base0

/-! ## Data model (`bom_lookup/models.py`, `models/part.py`) -/

/-- `MIN_STOCK` from `bom_lookup/models.py`. -/
def MIN_STOCK : Nat := 10

/-- The candidate record as the JLCPCB pipeline uses it.

`models.py` declares `lcsc_part`, `description`, `manufacturer`,
`mfr_part`, `package`, `stock`, `price` and `source`.  The client
(`client.py::_extract_components`) additionally passes `category` and
`discontinued`, and `resolve_part` reads `candidate.category`; the record
here carries those two fields as the pipeline requires.  The pydantic
model's omission of them is recorded by `jlcpcbModelDeclaredFields`
below and settled in the corresponding theorem. -/
structure JlcpcbSearchResult where
  lcsc_part : String
  description : String
  manufacturer : Option String := none
  mfr_part : Option String := none
  package : Option String := none
  stock : Nat
  price : Option ℚ := none
  category : Option String := none
  discontinued : Bool := false
  source : String
deriving DecidableEq

/-- Field names declared by the pydantic `JlcpcbSearchResult` model in
`bom_lookup/models.py`, in source order. -/
def jlcpcbModelDeclaredFields : List String :=
  ["lcsc_part", "description", "manufacturer", "mfr_part", "package",
   "stock", "price", "source"]

/-- Keyword arguments passed to the `JlcpcbSearchResult` constructor by
`client.py::_extract_components`, in source order. -/
def clientConstructorKwargs : List String :=
  ["lcsc_part", "description", "manufacturer", "mfr_part", "package",
   "stock", "price", "category", "discontinued", "source"]

/-- Attribute read by the category-rejection and ferrite-bead stages of
`resolve_part` (`(c.category or "").lower()`). -/
def resolverCategoryAttr : String := "category"

/-- The vendor-agnostic `Part` record from `models/part.py` (fields the
shop-path filter touches, plus the BOM linkage fields). -/
structure Part where
  part_number : String
  source_part_number : Option String := none
  references : Option (List String) := none
  value : String := ""
  footprint : String := ""
  distributor_name : Option String := none
  quantity_in_stock : Option Nat := none
  unit_price : Option ℚ := none
  currency : String := "USD"
  buy_now_url : Option String := none
  datasheet_url : Option String := none
  lifecycle : Option String := none
  package : Option String := none
deriving DecidableEq

/-! ## MPN package inference (`resolver.py::_MPN_PACKAGE_PATTERNS`) -/

/-- The ordered `(pattern, EIA code)` rule list from `resolver.py`.
Patterns are matched case-insensitively (input uppercased, literals
uppercase).  `ERJ.?2` and friends use a greedy optional wildcard for
`.?`; `C(?:GA|KG)?1005` uses a greedy optional alternation. -/
def mpnPackagePatterns : List (Re × String) :=
  let dotOpt : Re := Re.opt false (Re.cls fun c => c ≠ '\n')
  [ (Re.lit "CL03".data, "0201"), (Re.lit "CL05".data, "0402"),
    (Re.lit "CL10".data, "0603"), (Re.lit "CL21".data, "0805"),
    (Re.lit "CL31".data, "1206"), (Re.lit "CL32".data, "1210"),
    (Re.lit "CL43".data, "1812"),
    (Re.lit "GRM03".data, "0201"), (Re.lit "GRM15".data, "0402"),
    (Re.lit "GRM18".data, "0603"), (Re.lit "GRM21".data, "0805"),
    (Re.lit "GRM31".data, "1206"), (Re.lit "GRM32".data, "1210"),
    (Re.lit "GRM43".data, "1806"),
    (Re.lit "GCM03".data, "0201"), (Re.lit "GCM15".data, "0402"),
    (Re.lit "GCM18".data, "0603"), (Re.lit "GCM21".data, "0805"),
    (Re.lit "GCM31".data, "1206"), (Re.lit "GCM32".data, "1210"),
    (Re.lit "JMK105".data, "0402"), (Re.lit "JMK107".data, "0603"),
    (Re.lit "JMK212".data, "0805"), (Re.lit "JMK316".data, "1206"),
    (Re.lit "JMK325".data, "1210"),
    (Re.cat [Re.lit "C".data,
      Re.opt false (Re.alt (Re.lit "GA".data) (Re.lit "KG".data)),
      Re.lit "1005".data], "0402"),
    (Re.cat [Re.lit "C".data,
      Re.opt false (Re.alt (Re.lit "GA".data) (Re.lit "KG".data)),
      Re.lit "1608".data], "0603"),
    (Re.cat [Re.lit "C".data,
      Re.opt false (Re.alt (Re.lit "GA".data) (Re.lit "KG".data)),
      Re.lit "2012".data], "0805"),
    (Re.cat [Re.lit "C".data,
      Re.opt false (Re.alt (Re.lit "GA".data) (Re.lit "KG".data)),
      Re.lit "3216".data], "1206"),
    (Re.cat [Re.lit "C".data,
      Re.opt false (Re.alt (Re.lit "GA".data) (Re.lit "KG".data)),
      Re.lit "3225".data], "1210"),
    (Re.cat [Re.alt (Re.lit "CC".data) (Re.lit "RC".data),
      Re.lit "0201".data], "0201"),
    (Re.cat [Re.alt (Re.lit "CC".data) (Re.lit "RC".data),
      Re.lit "0402".data], "0402"),
    (Re.cat [Re.alt (Re.lit "CC".data) (Re.lit "RC".data),
      Re.lit "0603".data], "0603"),
    (Re.cat [Re.alt (Re.lit "CC".data) (Re.lit "RC".data),
      Re.lit "0805".data], "0805"),
    (Re.cat [Re.alt (Re.lit "CC".data) (Re.lit "RC".data),
      Re.lit "1206".data], "1206"),
    (Re.cat [Re.alt (Re.lit "CC".data) (Re.lit "RC".data),
      Re.lit "1210".data], "1210"),
    (Re.lit "CRCW0201".data, "0201"), (Re.lit "CRCW0402".data, "0402"),
    (Re.lit "CRCW0603".data, "0603"), (Re.lit "CRCW0805".data, "0805"),
    (Re.lit "CRCW1206".data, "1206"), (Re.lit "CRCW1210".data, "1210"),
    (Re.cat [Re.lit "ERJ".data, dotOpt, Re.lit "2".data], "0402"),
    (Re.cat [Re.lit "ERJ".data, dotOpt, Re.lit "3".data], "0603"),
    (Re.cat [Re.lit "ERJ".data, dotOpt, Re.lit "6".data], "0805"),
    (Re.cat [Re.lit "ERJ".data, dotOpt, Re.lit "8".data], "1206"),
    (Re.cat [Re.lit "ERJ".data, dotOpt, Re.lit "R".data], "0201"),
    (Re.lit "BLM15".data, "0402"), (Re.lit "BLM18".data, "0603"),
    (Re.lit "BLM21".data, "0805"), (Re.lit "BLM31".data, "1206"),
    (Re.lit "LQM21".data, "0805"), (Re.lit "LQM31".data, "1206"),
    (Re.lit "LQM32".data, "1210"), (Re.lit "LQM43".data, "1812") ]

/-- `infer_package_from_mpn`: first matching rule wins, `None` on a falsy
MPN or when no rule matches. -/
def infer_package_from_mpn (mpn : String) : Option String :=
  if mpn.isEmpty then none
  else
    (mpnPackagePatterns.find? fun pr =>
      (Re.matchAt pr.1 none (upperStr mpn).data).isSome).map (·.2)

/-! ## Shop-path candidate filter (`resolver.py::filter_candidates`) -/

/-- The `_FOOTPRINT_CATEGORY_DENY` table: deny-listed MPN name starts for
fuse pads. -/
def fuseDenyStarts : List String := ["BLM", "LQM", "CRCW", "RC", "ERJ"]

/-- `_mpn_is_ferrite_bead`: `re.match(r"^BLM", mpn, re.IGNORECASE)`. -/
def mpn_is_ferrite_bead (mpn : String) : Bool :=
  strStartsWith (upperStr mpn) "BLM"

/-- Step 1 of `filter_candidates`: component-type cross-category rejection
keyed by the deny table, with fallback when it would remove everything. -/
def fcTypeStage (footprint : String) (candidates : List Part) : List Part :=
  if strStartsWith footprint "Fuse_" then
    let typeFiltered := candidates.filter fun p =>
      !(fuseDenyStarts.any fun bad => strStartsWith (upperStr p.part_number) bad)
    if typeFiltered.isEmpty then candidates else typeFiltered
  else candidates

/-- Step 2 of `filter_candidates`: ferrite-bead guard for fuse pads, with
fallback when it would remove everything. -/
def fcBeadStage (footprint : String) (candidates : List Part) : List Part :=
  if strStartsWith footprint "Fuse_" then
    let nonBead := candidates.filter fun p => !mpn_is_ferrite_bead p.part_number
    if nonBead.isEmpty then candidates else nonBead
  else candidates

/-- `_effective_package`: the `package` field when truthy, otherwise the
MPN inference fallback. -/
def effectivePackage (p : Part) : Option String :=
  if pyTruthy p.package then p.package else infer_package_from_mpn p.part_number

/-- `filter_candidates(candidates, footprint, value)` from the shared
`resolver.py`: type rejection, bead guard, then the EIA package filter —
which falls back to the unfiltered list when no candidate matches. -/
def filter_candidates (candidates : List Part) (footprint _value : String) :
    List Part :=
  if candidates.isEmpty then candidates
  else
    let c1 := fcTypeStage footprint candidates
    let c2 := fcBeadStage footprint c1
    match eia_from_footprint footprint with
    | none => c2
    | some code =>
      let matched := c2.filter fun p => package_matches_eia (effectivePackage p) code
      if matched.isEmpty then c2 else matched

/-! ## Scoring (`bom_lookup/resolver.py::_score_candidate`) -/

/-- Occurrence of `\bword\b` at the head of `s` (the dielectric codes are
alphanumeric, so `\b` reduces to the neighbours not being word
characters). -/
def wordTokenHere (word : List Char) (prev : Option Char) (s : List Char) : Bool :=
  word.isPrefixOf s &&
    (match prev with | none => true | some p => !isWordC p) &&
    (match s.drop word.length with | [] => true | c :: _ => !isWordC c)

/-- Scan of `re.search(r"\bword\b", s)`. -/
def wordTokenScan (word : List Char) (prev : Option Char) : List Char → Bool
  | [] => wordTokenHere word prev []
  | c :: rest => wordTokenHere word prev (c :: rest) || wordTokenScan word (some c) rest

/-- `\bC0G\b|\bNP0\b|\bX7R\b|\bX5R\b` on the uppercased description. -/
def mentionsStableDielectric (descUpper : String) : Bool :=
  ["C0G", "NP0", "X7R", "X5R"].any fun w => wordTokenScan w.data none descUpper.data

/-- `\bY5V\b|\bZ5U\b|\bY5U\b` on the uppercased description. -/
def mentionsPoorDielectric (descUpper : String) : Bool :=
  ["Y5V", "Z5U", "Y5U"].any fun w => wordTokenScan w.data none descUpper.data

/-- `(\d+\.?\d*)\s*A(?![A-Z0-9])`. -/
def currentARe : Re :=
  Re.cat [Re.grp (Re.cat [Re.plus (Re.cls isDigitC),
    Re.opt false (Re.cls fun c => c = '.'), Re.star false (Re.cls isDigitC)]),
    Re.star false (Re.cls pyWs), Re.lit "A".data, Re.nla isUpperOrDigitC]

/-- `(\d+\.?\d*)\s*MA(?![A-Z0-9])`. -/
def currentMaRe : Re :=
  Re.cat [Re.grp (Re.cat [Re.plus (Re.cls isDigitC),
    Re.opt false (Re.cls fun c => c = '.'), Re.star false (Re.cls isDigitC)]),
    Re.star false (Re.cls pyWs), Re.lit "MA".data, Re.nla isUpperOrDigitC]

/-- The current rating in milliamps parsed from an uppercased description:
the amp pattern wins over the milliamp pattern, `0` when neither
matches. -/
def currentMilliamps (descUpper : String) : ℚ :=
  match Re.searchFrom currentARe none descUpper.data with
  | some cap => parseDec (cap.getD []) * 1000
  | none =>
    match Re.searchFrom currentMaRe none descUpper.data with
    | some cap => parseDec (cap.getD [])
    | none => 0

/-- Stock term: `min(100.0, math.log10(stock) * 20)` when `stock > 0`. -/
noncomputable def stockScore (stock : Nat) : ℝ :=
  if 0 < stock then min 100 (Real.logb 10 (stock : ℝ) * 20) else 0

/-- Price term: `min(30.0, 30.0 / (1.0 + price))` when the price is a
known positive number. -/
noncomputable def priceScore : Option ℚ → ℝ
  | some p => if 0 < p then min 30 (30 / (1 + (p : ℝ))) else 0
  | none => 0

/-- Capacitor dielectric term (`C_` footprints only). -/
def dielectricScore (footprint desc : String) : ℝ :=
  if strStartsWith footprint "C_" then
    let d := upperStr desc
    if mentionsStableDielectric d then 20
    else if mentionsPoorDielectric d then -50
    else 0
  else 0

/-- Power-inductor current term (`L_` footprints without `@` in the
comment): `min(30.0, current_ma / 100.0)`. -/
noncomputable def inductorScore (footprint comment desc : String) : ℝ :=
  if strStartsWith footprint "L_" && !charIn '@' comment then
    min 30 ((currentMilliamps (upperStr desc) : ℝ) / 100)
  else 0

/-- `_score_candidate(candidate, footprint, comment)`. -/
noncomputable def score_candidate (c : JlcpcbSearchResult)
    (footprint comment : String) : ℝ :=
  stockScore c.stock + priceScore c.price +
    dielectricScore footprint c.description +
    inductorScore footprint comment c.description

/-! ## Part resolution (`bom_lookup/resolver.py::resolve_part`) -/

/-- `_expected_category_keywords(footprint)`. -/
def expectedCategoryKeywords (footprint : String) : List String :=
  if strStartsWith footprint "R_" then ["resistor"]
  else if strStartsWith footprint "C_" then ["capacitor"]
  else if strStartsWith footprint "Fuse_" then ["fuse", "pptc", "circuit protection"]
  else []

/-- A soft filtering stage: apply the predicate, but keep the input set
unchanged when the filter would remove every candidate. -/
def softFilter (p : JlcpcbSearchResult → Bool) (cs : List JlcpcbSearchResult) :
    List JlcpcbSearchResult :=
  let kept := cs.filter p
  if kept.isEmpty then cs else kept

/-- Keyword predicate of the category-rejection stage:
`any(kw in (c.category or "").lower() for kw in category_keywords)`. -/
def categoryKeep (footprint : String) (c : JlcpcbSearchResult) : Bool :=
  (expectedCategoryKeywords footprint).any fun kw =>
    isSubstr kw (lowerStr (c.category.getD ""))

/-- Step 1.2: component-type category filter with fallback (applies only
when the footprint maps to keywords). -/
def categoryStage (footprint : String) (cs : List JlcpcbSearchResult) :
    List JlcpcbSearchResult :=
  if (expectedCategoryKeywords footprint).isEmpty then cs
  else softFilter (categoryKeep footprint) cs

/-- The `_FERRITE_KEYWORDS` tuple. -/
def ferriteKeywordList : List String :=
  ["ferrite", "bead", "inductor", "coil", "choke", "emi"]

/-- Keyword predicate of the ferrite-bead stage. -/
def ferriteKeep (c : JlcpcbSearchResult) : Bool :=
  ferriteKeywordList.any fun kw => isSubstr kw (lowerStr (c.category.getD ""))

/-- Step 1.5: ferrite-bead category filter with fallback (applies only to
`L_` footprints whose comment uses `@` notation). -/
def ferriteStage (comment footprint : String) (cs : List JlcpcbSearchResult) :
    List JlcpcbSearchResult :=
  if strStartsWith footprint "L_" && charIn '@' comment then
    softFilter ferriteKeep cs
  else cs

/-- `_desc_has_pin_count(desc, n)`: the six notational variants, searched
in the lowercased description. -/
def descHasPinCount (n : Nat) (desc : String) : Bool :=
  let dl := (lowerStr desc).data
  let nd := (Nat.repr n).data
  let sep : Re := Re.cls fun c => c = 'x' || c = '*' || c = '×'
  let pats : List Re :=
    [ Re.cat [Re.lit "1".data, sep, Re.lit nd, Re.lit "p".data, Re.wb],
      Re.cat [Re.lit "1".data, sep, Re.lit nd, Re.nla isDigitC],
      Re.cat [Re.wb, Re.lit nd, Re.lit "x1".data, Re.wb],
      Re.cat [Re.wb, Re.lit nd, Re.lit "-pin".data, Re.wb],
      Re.cat [Re.wb, Re.lit nd, Re.lit "pin".data, Re.wb],
      Re.cat [Re.wb, Re.lit nd, Re.lit "*1".data, Re.wb] ]
  pats.any fun r => (Re.searchFrom r none dl).isSome

/-- `right.?angle|horizontal|angled`, case-insensitive search. -/
def raRe : Re :=
  Re.alt (Re.cat [Re.lit "right".data, Re.opt false (Re.cls fun c => c ≠ '\n'),
    Re.lit "angle".data]) (Re.alt (Re.lit "horizontal".data) (Re.lit "angled".data))

/-- `_RA_PATTERN.search(desc)` with `re.IGNORECASE`. -/
def hasRightAngle (desc : String) : Bool :=
  (Re.searchFrom raRe none (lowerStr desc).data).isSome

/-- Pin-count sub-filter (soft). -/
def pinCountFilter (n : Nat) (cs : List JlcpcbSearchResult) :
    List JlcpcbSearchResult :=
  softFilter (fun c => descHasPinCount n c.description) cs

/-- Orientation sub-filter (soft): vertical excludes right-angle wording,
horizontal requires it. -/
def orientationFilter (o : PhOrient) (cs : List JlcpcbSearchResult) :
    List JlcpcbSearchResult :=
  softFilter (fun c => match o with
    | .vertical => !hasRightAngle c.description
    | .horizontal => hasRightAngle c.description) cs

/-- Step 2.5: pin-header pin-count and orientation filters, applied only
when the footprint parses as a pin header. -/
def pinHeaderStages (footprint : String) (cs : List JlcpcbSearchResult) :
    List JlcpcbSearchResult :=
  match parsePinHeader footprint with
  | none => cs
  | some (rows, cols, _, orient) =>
    let cs1 := pinCountFilter (rows * cols) cs
    match orient with
    | none => cs1
    | some o => orientationFilter o cs1

/-- Python's `max(best :: rest, key=f)`: the first element with the
maximal key wins (a later element replaces the running best only when its
key is strictly greater). -/
noncomputable def pyMaxBy (f : JlcpcbSearchResult → ℝ) :
    JlcpcbSearchResult → List JlcpcbSearchResult → JlcpcbSearchResult
  | best, [] => best
  | best, x :: xs => pyMaxBy f (if f best < f x then x else best) xs

/-- Step 3: rank by `_score_candidate` and select the maximum.  Python's
`max` raises `ValueError` on an empty list; that case is modelled as the
pair `(none, none)` and proven unreachable. -/
noncomputable def finishRank (comment footprint : String)
    (cs : List JlcpcbSearchResult) :
    Option JlcpcbSearchResult × Option String :=
  match cs with
  | [] => (none, none)
  | x :: xs => (some (pyMaxBy (fun c => score_candidate c footprint comment) x xs), none)

/-- The out-of-stock error message. -/
def outOfStockMsg (maxStock : Nat) : String :=
  "All candidates out of stock (max available: " ++ Nat.repr maxStock ++
    ", need: " ++ Nat.repr MIN_STOCK ++ ")"

/-- Lexicographic order on character lists (Python string comparison). -/
def lexLe : List Char → List Char → Bool
  | [], _ => true
  | _ :: _, [] => false
  | a :: as', b :: bs' => if a = b then lexLe as' bs' else decide (a < b)

/-- Insertion into a `sorted`-ascending list. -/
def insertSorted (x : String) : List String → List String
  | [] => [x]
  | y :: ys => if lexLe x.data y.data then x :: y :: ys else y :: insertSorted x ys

/-- Python `sorted` on strings. -/
def sortStr (l : List String) : List String := l.foldr insertSorted []

/-- Python `set` formation: distinct values, first occurrence kept. -/
def pyDedup : List String → List String
  | [] => []
  | x :: xs => x :: (pyDedup xs).filter fun y => decide (y ≠ x)

/-- The up-to-five distinct packages listed by the package-mismatch error:
`sorted({c.package for c in with_package if c.package})[:5]`. -/
def listedPackages (withPackage : List JlcpcbSearchResult) : List String :=
  (sortStr (pyDedup (withPackage.filterMap fun c =>
    if pyTruthy c.package then c.package else none))).take 5

/-- The package-mismatch error message produced when the EIA filter
removes every in-stock candidate. -/
def packageErrMsg (code : String) (inStock : List JlcpcbSearchResult) : String :=
  let withPackage := inStock.filter fun c => pyTruthy c.package
  if !withPackage.isEmpty then
    "No " ++ code ++ " package match found. Available packages: " ++
      String.intercalate ", " (listedPackages withPackage)
  else
    "No " ++ code ++ " package match found (" ++ Nat.repr inStock.length ++
      " in-stock candidates had no package info)"

/-- Python `max(c.stock for c in candidates)` (nonempty in use). -/
def maxStockOf : List JlcpcbSearchResult → Nat
  | [] => 0
  | c :: cs => cs.foldl (fun a d => Nat.max a d.stock) c.stock

/-- Stock-floor predicate of step 1. -/
def stockOk (c : JlcpcbSearchResult) : Bool := decide (MIN_STOCK ≤ c.stock)

/-- Steps 1.2 through 3 of `resolve_part`, operating on the in-stock
candidate list. -/
noncomputable def resolveInStock (comment footprint : String)
    (inStock : List JlcpcbSearchResult) :
    Option JlcpcbSearchResult × Option String :=
  let s1 := categoryStage footprint inStock
  let s2 := ferriteStage comment footprint s1
  match eia_from_footprint footprint with
  | some code =>
    let matched := s2.filter fun c => package_matches_eia c.package code
    if matched.isEmpty then (none, some (packageErrMsg code s2))
    else finishRank comment footprint (pinHeaderStages footprint matched)
  | none => finishRank comment footprint (pinHeaderStages footprint s2)

/-- `resolve_part(comment, footprint, candidates)`: the full pipeline. -/
noncomputable def resolve_part (comment footprint : String)
    (candidates : List JlcpcbSearchResult) :
    Option JlcpcbSearchResult × Option String :=
  if candidates.isEmpty then (none, some "No search results found")
  else
    let inStock := candidates.filter stockOk
    if inStock.isEmpty then (none, some (outOfStockMsg (maxStockOf candidates)))
    else resolveInStock comment footprint inStock

/-! ## Helper lemmas -/

theorem isPrefixOf_append {p s t : List Char} (h : p.isPrefixOf s = true) :
    p.isPrefixOf (s ++ t) = true := by
  rw [List.isPrefixOf_iff_prefix] at h ⊢
  exact h.trans (s.prefix_append t)

theorem isPrefixOf_self_append (p t : List Char) :
    p.isPrefixOf (p ++ t) = true := by
  rw [List.isPrefixOf_iff_prefix]
  exact p.prefix_append t

theorem isSubstrL_of_isPrefixOf {p s : List Char}
    (h : p.isPrefixOf s = true) : isSubstrL p s = true := by
  cases s with
  | nil => simpa [isSubstrL] using h
  | cons c u => simp [isSubstrL, h]

theorem isSubstrL_append {p s : List Char} (t : List Char)
    (h : isSubstrL p s = true) : isSubstrL p (s ++ t) = true := by
  induction s with
  | nil =>
    simp only [isSubstrL] at h
    exact isSubstrL_of_isPrefixOf (isPrefixOf_append h)
  | cons c u ih =>
    simp only [isSubstrL, Bool.or_eq_true] at h
    rcases h with h | h
    · simp only [List.cons_append, isSubstrL, Bool.or_eq_true]
      exact Or.inl (isPrefixOf_append h)
    · simp only [List.cons_append, isSubstrL, Bool.or_eq_true]
      exact Or.inr (ih h)

theorem isSubstrL_mid {p b : List Char} :
    ∀ a : List Char, isSubstrL p (a ++ p ++ b) = true
  | [] => by
    simp only [List.nil_append]
    exact isSubstrL_of_isPrefixOf (isPrefixOf_self_append p b)
  | c :: a => by
    simp only [List.cons_append, isSubstrL, Bool.or_eq_true]
    exact Or.inr (isSubstrL_mid a)

theorem isSubstr_append {code s : String} (t : String)
    (h : isSubstr code s = true) : isSubstr code (s ++ t) = true := by
  simp only [isSubstr, String.data_append] at h ⊢
  exact isSubstrL_append t.data h

theorem isSubstr_sandwich (p a b : String) :
    isSubstr p (a ++ p ++ b) = true := by
  simp only [isSubstr, String.data_append]
  exact isSubstrL_mid a.data

theorem softFilter_subset {p : JlcpcbSearchResult → Bool}
    {cs : List JlcpcbSearchResult} {x : JlcpcbSearchResult}
    (h : x ∈ softFilter p cs) : x ∈ cs := by
  unfold softFilter at h
  by_cases he : (cs.filter p).isEmpty
  · simpa [he] using h
  · simp only [he, if_false] at h
    exact (List.mem_filter.1 h).1

theorem softFilter_ne_nil {p : JlcpcbSearchResult → Bool}
    {cs : List JlcpcbSearchResult} (h : cs ≠ []) : softFilter p cs ≠ [] := by
  unfold softFilter
  by_cases he : (cs.filter p).isEmpty
  · simpa [he] using h
  · rw [if_neg he]
    intro hnil
    exact he (by rw [hnil]; rfl)

theorem softFilter_skip {p : JlcpcbSearchResult → Bool}
    {cs : List JlcpcbSearchResult} (h : cs.filter p = []) :
    softFilter p cs = cs := by
  unfold softFilter
  simp [h]

theorem categoryStage_subset {footprint : String}
    {cs : List JlcpcbSearchResult} {x : JlcpcbSearchResult}
    (h : x ∈ categoryStage footprint cs) : x ∈ cs := by
  unfold categoryStage at h
  by_cases hk : (expectedCategoryKeywords footprint).isEmpty
  · simpa [hk] using h
  · simp only [hk, if_false] at h
    exact softFilter_subset h

theorem categoryStage_ne_nil {footprint : String}
    {cs : List JlcpcbSearchResult} (h : cs ≠ []) :
    categoryStage footprint cs ≠ [] := by
  unfold categoryStage
  by_cases hk : (expectedCategoryKeywords footprint).isEmpty
  · simpa [hk] using h
  · simp only [hk, if_false]
    exact softFilter_ne_nil h

theorem ferriteStage_subset {comment footprint : String}
    {cs : List JlcpcbSearchResult} {x : JlcpcbSearchResult}
    (h : x ∈ ferriteStage comment footprint cs) : x ∈ cs := by
  unfold ferriteStage at h
  by_cases hf : (strStartsWith footprint "L_" && charIn '@' comment) = true
  · rw [if_pos hf] at h
    exact softFilter_subset h
  · rwa [if_neg hf] at h

theorem ferriteStage_ne_nil {comment footprint : String}
    {cs : List JlcpcbSearchResult} (h : cs ≠ []) :
    ferriteStage comment footprint cs ≠ [] := by
  unfold ferriteStage
  by_cases hf : (strStartsWith footprint "L_" && charIn '@' comment) = true
  · rw [if_pos hf]
    exact softFilter_ne_nil h
  · rwa [if_neg hf]

theorem pinHeaderStages_subset {footprint : String}
    {cs : List JlcpcbSearchResult} {x : JlcpcbSearchResult}
    (h : x ∈ pinHeaderStages footprint cs) : x ∈ cs := by
  unfold pinHeaderStages at h
  cases hp : parsePinHeader footprint with
  | none => rwa [hp] at h
  | some v =>
    obtain ⟨rows, cols, pitch, orient⟩ := v
    rw [hp] at h
    cases orient with
    | none =>
      simp only [pinCountFilter] at h
      exact softFilter_subset h
    | some o =>
      simp only [orientationFilter, pinCountFilter] at h
      exact softFilter_subset (softFilter_subset h)

theorem pinHeaderStages_ne_nil {footprint : String}
    {cs : List JlcpcbSearchResult} (h : cs ≠ []) :
    pinHeaderStages footprint cs ≠ [] := by
  unfold pinHeaderStages
  cases hp : parsePinHeader footprint with
  | none => exact h
  | some v =>
    obtain ⟨rows, cols, pitch, orient⟩ := v
    cases orient with
    | none => exact softFilter_ne_nil h
    | some o => exact softFilter_ne_nil (softFilter_ne_nil h)

theorem pyMaxBy_mem (f : JlcpcbSearchResult → ℝ) :
    ∀ (best : JlcpcbSearchResult) (l : List JlcpcbSearchResult),
      pyMaxBy f best l ∈ best :: l
  | best, [] => by simp [pyMaxBy]
  | best, x :: xs => by
    unfold pyMaxBy
    have ih := pyMaxBy_mem f (if f best < f x then x else best) xs
    rcases List.mem_cons.1 ih with h | h
    · rw [h]
      by_cases hc : f best < f x
      · simp [hc]
      · simp [hc]
    · exact List.mem_cons_of_mem _ (List.mem_cons_of_mem _ h)

theorem finishRank_eq_some {comment footprint : String}
    {cs : List JlcpcbSearchResult} {sel : JlcpcbSearchResult}
    {e : Option String}
    (h : finishRank comment footprint cs = (some sel, e)) :
    e = none ∧ sel ∈ cs := by
  cases cs with
  | nil => simp [finishRank] at h
  | cons x xs =>
    simp only [finishRank, Prod.mk.injEq, Option.some.injEq] at h
    obtain ⟨h1, h2⟩ := h
    exact ⟨h2.symm, h1 ▸ pyMaxBy_mem _ x xs⟩

theorem finishRank_of_ne_nil (comment footprint : String)
    {cs : List JlcpcbSearchResult} (h : cs ≠ []) :
    ∃ sel, finishRank comment footprint cs = (some sel, none) := by
  cases cs with
  | nil => exact absurd rfl h
  | cons x xs => exact ⟨_, rfl⟩

theorem resolveInStock_eq_some {comment footprint : String}
    {inStock : List JlcpcbSearchResult} {sel : JlcpcbSearchResult}
    {e : Option String}
    (h : resolveInStock comment footprint inStock = (some sel, e)) :
    e = none ∧ sel ∈ inStock ∧
      ∀ code, eia_from_footprint footprint = some code →
        package_matches_eia sel.package code = true := by
  simp only [resolveInStock] at h
  split at h
  · rename_i code hc
    split at h
    · simp at h
    · obtain ⟨he, hmem⟩ := finishRank_eq_some h
      have hmatched := pinHeaderStages_subset hmem
      have hfilter := List.mem_filter.1 hmatched
      refine ⟨he, ?_, ?_⟩
      · exact categoryStage_subset (ferriteStage_subset hfilter.1)
      · intro code2 hcode2
        rw [hc] at hcode2
        cases hcode2
        exact hfilter.2
  · rename_i hc
    obtain ⟨he, hmem⟩ := finishRank_eq_some h
    refine ⟨he, ?_, ?_⟩
    · exact categoryStage_subset (ferriteStage_subset (pinHeaderStages_subset hmem))
    · intro code hcode
      rw [hc] at hcode
      exact absurd hcode (by simp)

theorem resolveInStock_shape (comment footprint : String)
    {inStock : List JlcpcbSearchResult} (h : inStock ≠ []) :
    (∃ sel, resolveInStock comment footprint inStock = (some sel, none)) ∨
      ∃ msg, resolveInStock comment footprint inStock = (none, some msg) := by
  simp only [resolveInStock]
  split
  · rename_i code hc
    split
    · rename_i hm
      right
      exact ⟨_, rfl⟩
    · rename_i hm
      left
      have hne : (ferriteStage comment footprint
          (categoryStage footprint inStock)).filter
            (fun c => package_matches_eia c.package code) ≠ [] := by
        intro hn
        exact hm (by rw [hn]; rfl)
      exact finishRank_of_ne_nil _ _ (pinHeaderStages_ne_nil hne)
  · left
    exact finishRank_of_ne_nil _ _ (pinHeaderStages_ne_nil
      (ferriteStage_ne_nil (categoryStage_ne_nil h)))

theorem resolve_part_out_of_stock_eq {comment footprint : String}
    {cs : List JlcpcbSearchResult} (h0 : cs ≠ [])
    (hall : ∀ c ∈ cs, c.stock < MIN_STOCK) :
    resolve_part comment footprint cs =
      (none, some (outOfStockMsg (maxStockOf cs))) := by
  simp only [resolve_part]
  rw [if_neg (by simpa using h0)]
  have hf : cs.filter stockOk = [] := by
    refine List.filter_eq_nil_iff.2 fun c hc => ?_
    simp only [stockOk, decide_eq_true_eq]
    exact Nat.not_le.2 (hall c hc)
  rw [if_pos (by simp [hf])]

theorem resolve_part_package_mismatch_eq {comment footprint code : String}
    {cs : List JlcpcbSearchResult}
    (hcode : eia_from_footprint footprint = some code)
    (hne : cs.filter stockOk ≠ [])
    (hemp : (ferriteStage comment footprint
        (categoryStage footprint (cs.filter stockOk))).filter
          (fun c => package_matches_eia c.package code) = []) :
    resolve_part comment footprint cs =
      (none, some (packageErrMsg code (ferriteStage comment footprint
        (categoryStage footprint (cs.filter stockOk))))) := by
  have h0 : cs ≠ [] := by
    intro h
    rw [h] at hne
    exact hne rfl
  simp only [resolve_part]
  rw [if_neg (by simpa using h0), if_neg (by simpa using hne)]
  simp only [resolveInStock, hcode]
  rw [if_pos (by simp [hemp])]

theorem insertSorted_perm (x : String) :
    ∀ l : List String, (insertSorted x l).Perm (x :: l)
  | [] => by simp [insertSorted]
  | y :: ys => by
    unfold insertSorted
    by_cases hc : lexLe x.data y.data
    · rw [if_pos hc]
    · rw [if_neg hc]
      have h1 : (y :: insertSorted x ys).Perm (y :: x :: ys) :=
        (insertSorted_perm x ys).cons y
      exact h1.trans (List.Perm.swap x y ys)

theorem sortStr_perm : ∀ l : List String, (sortStr l).Perm l
  | [] => by simp [sortStr]
  | x :: xs => by
    have h1 : sortStr (x :: xs) = insertSorted x (sortStr xs) := rfl
    rw [h1]
    exact (insertSorted_perm x (sortStr xs)).trans ((sortStr_perm xs).cons x)

theorem pyDedup_subset {x : String} : ∀ {l : List String}, x ∈ pyDedup l → x ∈ l
  | [], h => by simp [pyDedup] at h
  | a :: l, h => by
    simp only [pyDedup, List.mem_cons] at h
    rcases h with h | h
    · exact h ▸ List.mem_cons_self a l
    · exact List.mem_cons_of_mem a (pyDedup_subset (List.mem_filter.1 h).1)

theorem pyDedup_nodup : ∀ l : List String, (pyDedup l).Nodup
  | [] => by simp [pyDedup]
  | a :: l => by
    simp only [pyDedup, List.nodup_cons]
    refine ⟨fun hmem => ?_, (pyDedup_nodup l).filter _⟩
    have := (List.mem_filter.1 hmem).2
    simp at this

theorem listedPackages_length_le (wp : List JlcpcbSearchResult) :
    (listedPackages wp).length ≤ 5 := by
  unfold listedPackages
  rw [List.length_take]
  exact min_le_left _ _

theorem listedPackages_seen {wp : List JlcpcbSearchResult} {pkg : String}
    (h : pkg ∈ listedPackages wp) : ∃ c ∈ wp, c.package = some pkg := by
  unfold listedPackages at h
  have h1 := List.mem_of_mem_take h
  have h2 := (sortStr_perm _).mem_iff.1 h1
  have h3 := pyDedup_subset h2
  obtain ⟨c, hc, hfc⟩ := List.mem_filterMap.1 h3
  by_cases ht : pyTruthy c.package
  · rw [if_pos ht] at hfc
    exact ⟨c, hc, hfc⟩
  · rw [if_neg ht] at hfc
    exact absurd hfc (by simp)

theorem listedPackages_nodup (wp : List JlcpcbSearchResult) :
    (listedPackages wp).Nodup := by
  unfold listedPackages
  exact ((sortStr_perm _).nodup_iff.2 (pyDedup_nodup _)).sublist (List.take_sublist _ _)

theorem resolve_part_eq_some {comment footprint : String}
    {candidates : List JlcpcbSearchResult} {sel : JlcpcbSearchResult}
    {e : Option String}
    (h : resolve_part comment footprint candidates = (some sel, e)) :
    e = none ∧ sel ∈ candidates.filter stockOk ∧
      ∀ code, eia_from_footprint footprint = some code →
        package_matches_eia sel.package code = true := by
  simp only [resolve_part] at h
  by_cases h0 : candidates.isEmpty
  · rw [if_pos h0] at h
    simp at h
  · rw [if_neg h0] at h
    by_cases h1 : (candidates.filter stockOk).isEmpty
    · rw [if_pos h1] at h
      simp at h
    · rw [if_neg h1] at h
      exact resolveInStock_eq_some h

theorem logb_ten_pow (n : ℕ) : Real.logb 10 ((10 : ℝ) ^ n) = n := by
  have h10 : (1 : ℝ) < 10 := by norm_num
  rw [Real.logb, Real.log_pow, mul_div_assoc,
    div_self (Real.log_pos h10).ne', mul_one]

theorem stockScore_nonneg (s : ℕ) : 0 ≤ stockScore s := by
  unfold stockScore
  by_cases hs : 0 < s
  · rw [if_pos hs]
    have h1 : (1 : ℝ) ≤ (s : ℝ) := by exact_mod_cast hs
    have hl : 0 ≤ Real.logb 10 (s : ℝ) := Real.logb_nonneg (by norm_num) h1
    exact le_min (by norm_num) (by nlinarith)
  · rw [if_neg hs]

theorem stockScore_mono {s t : ℕ} (h : s ≤ t) : stockScore s ≤ stockScore t := by
  by_cases hs : 0 < s
  · have ht : 0 < t := lt_of_lt_of_le hs h
    unfold stockScore
    rw [if_pos hs, if_pos ht]
    refine min_le_min le_rfl ?_
    refine mul_le_mul_of_nonneg_right ?_ (by norm_num)
    exact Real.logb_le_logb_of_le (by norm_num)
      (by exact_mod_cast hs) (by exact_mod_cast h)
  · have hs0 : stockScore s = 0 := by
      unfold stockScore
      rw [if_neg hs]
    rw [hs0]
    exact stockScore_nonneg t

theorem not_startsWith_L_of_C {s : String}
    (h : strStartsWith s "C_" = true) : strStartsWith s "L_" = false := by
  unfold strStartsWith at h ⊢
  have hC : "C_".data = ['C', '_'] := rfl
  have hL : "L_".data = ['L', '_'] := rfl
  rw [hC] at h
  rw [hL]
  cases hd : s.data with
  | nil =>
    rw [hd] at h
    simp [List.isPrefixOf] at h
  | cons c cs =>
    rw [hd] at h
    simp only [List.isPrefixOf, Bool.and_eq_true, beq_iff_eq] at h
    obtain ⟨h1, _⟩ := h
    subst h1
    simp [List.isPrefixOf]

theorem fcTypeStage_ne_nil {footprint : String} {ps : List Part}
    (h : ps ≠ []) : fcTypeStage footprint ps ≠ [] := by
  unfold fcTypeStage
  by_cases hf : strStartsWith footprint "Fuse_" = true
  · rw [if_pos hf]
    by_cases he : (ps.filter fun p =>
        !(fuseDenyStarts.any fun bad =>
          strStartsWith (upperStr p.part_number) bad)).isEmpty
    · simpa [he] using h
    · rw [if_neg he]
      intro hnil
      exact he (by rw [hnil]; rfl)
  · rwa [if_neg hf]

theorem fcBeadStage_ne_nil {footprint : String} {ps : List Part}
    (h : ps ≠ []) : fcBeadStage footprint ps ≠ [] := by
  unfold fcBeadStage
  by_cases hf : strStartsWith footprint "Fuse_" = true
  · rw [if_pos hf]
    by_cases he : (ps.filter fun p => !mpn_is_ferrite_bead p.part_number).isEmpty
    · simpa [he] using h
    · rw [if_neg he]
      intro hnil
      exact he (by rw [hnil]; rfl)
  · rwa [if_neg hf]

theorem categoryStage_skip {footprint : String} {cs : List JlcpcbSearchResult}
    (h : cs.filter (categoryKeep footprint) = []) :
    categoryStage footprint cs = cs := by
  unfold categoryStage
  by_cases hk : (expectedCategoryKeywords footprint).isEmpty
  · rw [if_pos hk]
  · rw [if_neg hk]
    exact softFilter_skip h

theorem ferriteStage_skip {comment footprint : String}
    {cs : List JlcpcbSearchResult} (h : cs.filter ferriteKeep = []) :
    ferriteStage comment footprint cs = cs := by
  unfold ferriteStage
  by_cases hf : (strStartsWith footprint "L_" && charIn '@' comment) = true
  · rw [if_pos hf]
    exact softFilter_skip h
  · rw [if_neg hf]

/-! ## Concrete inputs used by witnesses and counterexamples -/

/-- An in-stock 0402 candidate with no category metadata. -/
def cexNoCat : JlcpcbSearchResult :=
  { lcsc_part := "C1001", description := "100nF Capacitor",
    package := some "0402", stock := 100, price := some (1 / 100),
    category := none, source := "jlcpcb" }

/-- An in-stock 0805 candidate whose category is a capacitor taxonomy. -/
def cexWrongPkg : JlcpcbSearchResult :=
  { lcsc_part := "C1002", description := "100nF Capacitor",
    package := some "0805", stock := 100, price := some (1 / 50),
    category := some "Capacitors / Multilayer Ceramic Capacitors MLCC",
    source := "jlcpcb" }

/-- A fully matching candidate: 0402 package and capacitor category. -/
def cexGood : JlcpcbSearchResult :=
  { lcsc_part := "C1003", description := "100nF Capacitor",
    package := some "0402", stock := 1000, price := some (1 / 100),
    category := some "Capacitors", source := "jlcpcb" }

/-- A candidate below the stock floor. -/
def cexLowStock : JlcpcbSearchResult :=
  { lcsc_part := "C1004", description := "Rare Component",
    package := some "0402", stock := 5, price := some (1 / 2),
    category := some "Capacitors", source := "jlcpcb" }

/-- A poor-dielectric candidate with huge stock and a good price. -/
def cexPoorDielectric : JlcpcbSearchResult :=
  { lcsc_part := "C1005", description := "10uF 10V Y5V 0805",
    package := some "0805", stock := 1000000, price := some (1 / 100),
    category := some "Capacitors", source := "jlcpcb" }

/-- A stable-dielectric candidate with the stock floor and no price. -/
def cexStableDielectric : JlcpcbSearchResult :=
  { lcsc_part := "C1006", description := "100nF 50V X7R 0805",
    package := some "0805", stock := 10, price := none,
    category := some "Capacitors", source := "jlcpcb" }

/-- A shop-path part whose package is the wrong EIA size. -/
def pexWrongPkg : Part :=
  { part_number := "X123", package := some "0805" }

/-! ## Claim theorems -/

/-- C1 (counterexample): with footprint `C_0402_1005Metric` the EIA code
`0402` is extractable and the first candidate has sufficient stock and a
matching package, yet `resolve_part` does not return a Resolved outcome:
the soft category stage keeps only the wrong-package candidate (the
matching one has no category metadata), and the hard package stage then
fails.  This refutes the claim's guarantee of a Resolved outcome. -/
theorem resolver_package_resolved_counterexample :
    eia_from_footprint "C_0402_1005Metric" = some "0402" ∧
    MIN_STOCK ≤ cexNoCat.stock ∧
    package_matches_eia cexNoCat.package "0402" = true ∧
    cexNoCat ∈ [cexNoCat, cexWrongPkg] ∧
    (resolve_part "100nF" "C_0402_1005Metric" [cexNoCat, cexWrongPkg]).1 = none := by
  exact ⟨rfl, by decide, by decide, List.mem_cons_self _ _, rfl⟩

/-- C1 (amended): whenever the footprint yields an EIA code, any Resolved
outcome of `resolve_part` selects a candidate whose package matches that
code under `package_matches_eia`; it never selects a failing package.
(The original claim's stronger promise that a Resolved outcome is always
produced when a matching in-stock candidate exists is refuted by the
counterexample above.) -/
theorem resolver_package_hard_constraint
    (comment footprint code : String) (candidates : List JlcpcbSearchResult)
    (sel : JlcpcbSearchResult) (e : Option String)
    (hcode : eia_from_footprint footprint = some code)
    (hres : resolve_part comment footprint candidates = (some sel, e)) :
    package_matches_eia sel.package code = true :=
  (resolve_part_eq_some hres).2.2 code hcode

/-- Witness for C1: a concrete Resolved outcome whose selected package
matches the extracted code. -/
theorem resolver_package_hard_constraint_witness :
    package_matches_eia cexGood.package "0402" = true :=
  resolver_package_hard_constraint "100nF" "C_0402_1005Metric" "0402"
    [cexGood] cexGood none rfl rfl

/-- C2: every selected candidate of a Resolved `resolve_part` outcome has
stock at least `MIN_STOCK`; `MIN_STOCK` is the fixed global value 10; and
the stock filter runs first — the remainder of the pipeline only ever
sees the stock-filtered candidate list. -/
theorem resolver_stock_floor :
    (∀ comment footprint candidates sel e,
      resolve_part comment footprint candidates = (some sel, e) →
        MIN_STOCK ≤ sel.stock) ∧
    MIN_STOCK = 10 ∧
    (∀ comment footprint candidates, candidates ≠ [] →
      candidates.filter stockOk ≠ [] →
        resolve_part comment footprint candidates =
          resolveInStock comment footprint (candidates.filter stockOk)) := by
  refine ⟨?_, rfl, ?_⟩
  · intro comment footprint candidates sel e h
    have hm := (resolve_part_eq_some h).2.1
    have hs := (List.mem_filter.1 hm).2
    simpa [stockOk] using hs
  · intro comment footprint candidates h0 h1
    simp only [resolve_part]
    rw [if_neg (by simpa using h0), if_neg (by simpa using h1)]

/-- Witness for C2: a concrete Resolved outcome whose selected candidate
meets the stock floor. -/
theorem resolver_stock_floor_witness : MIN_STOCK ≤ cexGood.stock :=
  resolver_stock_floor.1 "100nF" "C_0402_1005Metric" [cexGood] cexGood none rfl

/-- C6: a non-empty candidate list in which every candidate is below
`MIN_STOCK` fails immediately with the out-of-stock error, whose message
contains the maximum stock seen among the candidates. -/
theorem resolver_out_of_stock
    (comment footprint : String) (cs : List JlcpcbSearchResult)
    (h0 : cs ≠ []) (hall : ∀ c ∈ cs, c.stock < MIN_STOCK) :
    resolve_part comment footprint cs =
      (none, some (outOfStockMsg (maxStockOf cs))) ∧
    isSubstr (Nat.repr (maxStockOf cs)) (outOfStockMsg (maxStockOf cs)) = true := by
  refine ⟨resolve_part_out_of_stock_eq h0 hall, ?_⟩
  unfold outOfStockMsg
  rw [String.append_assoc, String.append_assoc]
  exact isSubstr_sandwich (Nat.repr (maxStockOf cs))
    "All candidates out of stock (max available: " _

/-- Witness for C6: a single candidate with stock 5 yields the
out-of-stock error naming 5. -/
theorem resolver_out_of_stock_witness :
    resolve_part "RareChip" "C_0402_1005Metric" [cexLowStock] =
      (none, some (outOfStockMsg (maxStockOf [cexLowStock]))) ∧
    isSubstr (Nat.repr (maxStockOf [cexLowStock]))
      (outOfStockMsg (maxStockOf [cexLowStock])) = true :=
  resolver_out_of_stock "RareChip" "C_0402_1005Metric" [cexLowStock]
    (by simp) (by decide)

/-- C9: every `resolve_part` outcome populates exactly one of
(selected, error) — either `(some sel, none)` or `(none, some reason)` —
and the empty candidate list yields the no-results failure. -/
theorem resolve_outcome_dichotomy (comment footprint : String)
    (cs : List JlcpcbSearchResult) :
    ((∃ sel, resolve_part comment footprint cs = (some sel, none)) ∨
      (∃ msg, resolve_part comment footprint cs = (none, some msg))) ∧
    (cs = [] →
      resolve_part comment footprint cs =
        (none, some "No search results found")) := by
  constructor
  · simp only [resolve_part]
    by_cases h0 : cs.isEmpty
    · rw [if_pos h0]
      right
      exact ⟨_, rfl⟩
    · rw [if_neg h0]
      by_cases h1 : (cs.filter stockOk).isEmpty
      · rw [if_pos h1]
        right
        exact ⟨_, rfl⟩
      · rw [if_neg h1]
        refine resolveInStock_shape comment footprint ?_
        intro hn
        exact h1 (by rw [hn]; rfl)
  · intro h
    subst h
    rfl

/-- Witness for C9: the empty list produces the no-results failure. -/
theorem resolve_outcome_dichotomy_witness :
    resolve_part "UnknownPart" "Unknown" [] =
      (none, some "No search results found") :=
  (resolve_outcome_dichotomy "UnknownPart" "Unknown" []).2 rfl

/-- C3: each soft filtering stage (category rejection, ferrite-bead
disambiguation, pin-header pin count, pin-header orientation, and the
shop path's type-rejection and bead-guard steps) keeps the pre-stage
candidate set unchanged when applying it would remove every candidate,
and never produces an empty set from a non-empty one. -/
theorem soft_stages_never_empty
    (comment footprint : String) (n : ℕ) (o : PhOrient)
    (cs : List JlcpcbSearchResult) (ps : List Part)
    (hcs : cs ≠ []) (hps : ps ≠ []) :
    (categoryStage footprint cs ≠ [] ∧
      (cs.filter (categoryKeep footprint) = [] →
        categoryStage footprint cs = cs)) ∧
    (ferriteStage comment footprint cs ≠ [] ∧
      (cs.filter ferriteKeep = [] → ferriteStage comment footprint cs = cs)) ∧
    (pinCountFilter n cs ≠ [] ∧
      (cs.filter (fun c => descHasPinCount n c.description) = [] →
        pinCountFilter n cs = cs)) ∧
    (orientationFilter o cs ≠ [] ∧
      (cs.filter (fun c => match o with
        | .vertical => !hasRightAngle c.description
        | .horizontal => hasRightAngle c.description) = [] →
        orientationFilter o cs = cs)) ∧
    fcTypeStage footprint ps ≠ [] ∧ fcBeadStage footprint ps ≠ [] := by
  refine ⟨⟨categoryStage_ne_nil hcs, categoryStage_skip⟩,
    ⟨ferriteStage_ne_nil hcs, ferriteStage_skip⟩,
    ⟨softFilter_ne_nil hcs, softFilter_skip⟩,
    ⟨softFilter_ne_nil hcs, softFilter_skip⟩,
    fcTypeStage_ne_nil hps, fcBeadStage_ne_nil hps⟩

/-- Witness for C3: the stage guarantees instantiated on a concrete
candidate whose metadata matches no stage predicate, so every soft stage
falls back to the unchanged input. -/
theorem soft_stages_never_empty_witness :
    (categoryStage "R_0402_1005Metric" [cexNoCat] ≠ [] ∧
      ([cexNoCat].filter (categoryKeep "R_0402_1005Metric") = [] →
        categoryStage "R_0402_1005Metric" [cexNoCat] = [cexNoCat])) ∧
    (ferriteStage "27" "R_0402_1005Metric" [cexNoCat] ≠ [] ∧
      ([cexNoCat].filter ferriteKeep = [] →
        ferriteStage "27" "R_0402_1005Metric" [cexNoCat] = [cexNoCat])) ∧
    (pinCountFilter 4 [cexNoCat] ≠ [] ∧
      ([cexNoCat].filter (fun c => descHasPinCount 4 c.description) = [] →
        pinCountFilter 4 [cexNoCat] = [cexNoCat])) ∧
    (orientationFilter PhOrient.horizontal [cexNoCat] ≠ [] ∧
      ([cexNoCat].filter (fun c => match PhOrient.horizontal with
        | .vertical => !hasRightAngle c.description
        | .horizontal => hasRightAngle c.description) = [] →
        orientationFilter PhOrient.horizontal [cexNoCat] = [cexNoCat])) ∧
    fcTypeStage "R_0402_1005Metric" [pexWrongPkg] ≠ [] ∧
    fcBeadStage "R_0402_1005Metric" [pexWrongPkg] ≠ [] :=
  soft_stages_never_empty "27" "R_0402_1005Metric" 4 PhOrient.horizontal
    [cexNoCat] [pexWrongPkg] (by simp) (by simp)

/-- C4 (counterexample): the shop-path `filter_candidates` does not fail
when the EIA filter would eliminate every candidate — it falls back to
the unfiltered list, returning a candidate whose package does not match
the footprint's EIA code.  This refutes the claim for the repository's
candidate filtering as a whole. -/
theorem filter_candidates_package_fallback_counterexample :
    eia_from_footprint "C_0402_1005Metric" = some "0402" ∧
    package_matches_eia pexWrongPkg.package "0402" = false ∧
    filter_candidates [pexWrongPkg] "C_0402_1005Metric" "100nF" =
      [pexWrongPkg] := by
  exact ⟨rfl, by decide, rfl⟩

/-- C4 (amended): in the JLCPCB resolver `resolve_part`, when the
footprint yields an EIA code and filtering by it would eliminate every
remaining in-stock candidate, resolution fails with the package-mismatch
error; the message names at most five distinct packages, each actually
seen on a surviving candidate, and degrades to the generic
no-package-info message when no candidate had a truthy package.  (The
shop-path `filter_candidates` instead falls back to the unfiltered list,
per the counterexample.) -/
theorem resolver_package_mismatch_error
    (comment footprint code : String)
    (cs survivors : List JlcpcbSearchResult)
    (hcode : eia_from_footprint footprint = some code)
    (hne : cs.filter stockOk ≠ [])
    (hsurv : survivors = ferriteStage comment footprint
      (categoryStage footprint (cs.filter stockOk)))
    (hemp : survivors.filter
      (fun c => package_matches_eia c.package code) = []) :
    resolve_part comment footprint cs =
      (none, some (packageErrMsg code survivors)) ∧
    (listedPackages (survivors.filter fun c => pyTruthy c.package)).length ≤ 5 ∧
    (listedPackages (survivors.filter fun c => pyTruthy c.package)).Nodup ∧
    (∀ pkg ∈ listedPackages (survivors.filter fun c => pyTruthy c.package),
      ∃ c ∈ survivors, c.package = some pkg) ∧
    (survivors.filter (fun c => pyTruthy c.package) = [] →
      packageErrMsg code survivors =
        "No " ++ code ++ " package match found (" ++
          Nat.repr survivors.length ++
          " in-stock candidates had no package info)") := by
  subst hsurv
  refine ⟨resolve_part_package_mismatch_eq hcode hne hemp,
    listedPackages_length_le _, listedPackages_nodup _, ?_, ?_⟩
  · intro pkg hpkg
    obtain ⟨c, hc, hcp⟩ := listedPackages_seen hpkg
    exact ⟨c, (List.mem_filter.1 hc).1, hcp⟩
  · intro hnopkg
    unfold packageErrMsg
    rw [hnopkg]
    rfl

/-- Witness for C4: a concrete wrong-package in-stock candidate produces
the package-mismatch error with its package listed. -/
theorem resolver_package_mismatch_error_witness :
    resolve_part "100nF" "C_0402_1005Metric" [cexWrongPkg] =
      (none, some (packageErrMsg "0402" [cexWrongPkg])) ∧
    (listedPackages ([cexWrongPkg].filter fun c => pyTruthy c.package)).length ≤ 5 ∧
    (listedPackages ([cexWrongPkg].filter fun c => pyTruthy c.package)).Nodup ∧
    (∀ pkg ∈ listedPackages ([cexWrongPkg].filter fun c => pyTruthy c.package),
      ∃ c ∈ [cexWrongPkg], c.package = some pkg) ∧
    ([cexWrongPkg].filter (fun c => pyTruthy c.package) = [] →
      packageErrMsg "0402" [cexWrongPkg] =
        "No " ++ "0402" ++ " package match found (" ++
          Nat.repr ([cexWrongPkg] : List JlcpcbSearchResult).length ++
          " in-stock candidates had no package info)") :=
  resolver_package_mismatch_error "100nF" "C_0402_1005Metric" "0402"
    [cexWrongPkg] [cexWrongPkg] rfl (by decide) rfl rfl

/-- C5 (counterexample): a poor-dielectric (Y5V) candidate with very high
stock and a good price scores strictly higher than a stable-dielectric
(X7R) candidate at the stock floor with no price, refuting the claim
that poor always scores below stable regardless of stock and price. -/
theorem dielectric_regardless_counterexample :
    mentionsPoorDielectric (upperStr cexPoorDielectric.description) = true ∧
    mentionsStableDielectric (upperStr cexPoorDielectric.description) = false ∧
    mentionsStableDielectric (upperStr cexStableDielectric.description) = true ∧
    score_candidate cexStableDielectric "C_0805_2012Metric" "10uF" <
      score_candidate cexPoorDielectric "C_0805_2012Metric" "10uF" := by
  refine ⟨rfl, rfl, rfl, ?_⟩
  have hbound : score_candidate cexStableDielectric "C_0805_2012Metric" "10uF" =
      20 + 0 + 20 + 0 := by
    show stockScore 10 + priceScore none +
      dielectricScore "C_0805_2012Metric" "100nF 50V X7R 0805" +
      inductorScore "C_0805_2012Metric" "10uF" "100nF 50V X7R 0805" = _
    have h1 : stockScore 10 = 20 := by
      rw [stockScore, if_pos (by norm_num)]
      have e : ((10 : ℕ) : ℝ) = (10 : ℝ) ^ (1 : ℕ) := by norm_num
      rw [e, logb_ten_pow]
      norm_num
    have h2 : priceScore none = 0 := rfl
    have h3 : dielectricScore "C_0805_2012Metric" "100nF 50V X7R 0805" = 20 := rfl
    have h4 : inductorScore "C_0805_2012Metric" "10uF" "100nF 50V X7R 0805" = 0 := by
      unfold inductorScore
      rw [if_neg (by decide)]
    rw [h1, h2, h3, h4]
  have hpoor : score_candidate cexPoorDielectric "C_0805_2012Metric" "10uF" =
      100 + min 30 (30 / (1 + ((1 / 100 : ℚ) : ℝ))) + (-50) + 0 := by
    show stockScore 1000000 + priceScore (some (1 / 100)) +
      dielectricScore "C_0805_2012Metric" "10uF 10V Y5V 0805" +
      inductorScore "C_0805_2012Metric" "10uF" "10uF 10V Y5V 0805" = _
    have h1 : stockScore 1000000 = 100 := by
      rw [stockScore, if_pos (by norm_num)]
      have e : ((1000000 : ℕ) : ℝ) = (10 : ℝ) ^ (6 : ℕ) := by norm_num
      rw [e, logb_ten_pow]
      norm_num
    have h2 : priceScore (some (1 / 100)) =
        min 30 (30 / (1 + ((1 / 100 : ℚ) : ℝ))) := by
      simp only [priceScore]
      rw [if_pos (by norm_num)]
    have h3 : dielectricScore "C_0805_2012Metric" "10uF 10V Y5V 0805" = -50 := rfl
    have h4 : inductorScore "C_0805_2012Metric" "10uF" "10uF 10V Y5V 0805" = 0 := by
      unfold inductorScore
      rw [if_neg (by decide)]
    rw [h1, h2, h3, h4]
  rw [hbound, hpoor]
  have hc : ((1 / 100 : ℚ) : ℝ) = 1 / 100 := by norm_num
  rw [hc]
  norm_num [min_def]

/-- C5 (amended): for a capacitor footprint, a candidate whose
description mentions a poor dielectric code (and no stable one) scores
strictly lower than a stable-dielectric candidate with the same stock
and price. -/
theorem dielectric_penalty_dominates
    (footprint comment : String) (cb cg : JlcpcbSearchResult)
    (hfp : strStartsWith footprint "C_" = true)
    (hstock : cb.stock = cg.stock) (hprice : cb.price = cg.price)
    (hpoor : mentionsPoorDielectric (upperStr cb.description) = true)
    (hnotstable : mentionsStableDielectric (upperStr cb.description) = false)
    (hstable : mentionsStableDielectric (upperStr cg.description) = true) :
    score_candidate cb footprint comment <
      score_candidate cg footprint comment := by
  have hL : strStartsWith footprint "L_" = false := not_startsWith_L_of_C hfp
  have hdb : dielectricScore footprint cb.description = -50 := by
    simp [dielectricScore, hfp, hnotstable, hpoor]
  have hdg : dielectricScore footprint cg.description = 20 := by
    simp [dielectricScore, hfp, hstable]
  have hib : inductorScore footprint comment cb.description = 0 := by
    unfold inductorScore
    rw [hL]
    simp
  have hig : inductorScore footprint comment cg.description = 0 := by
    unfold inductorScore
    rw [hL]
    simp
  have key : score_candidate cb footprint comment =
      stockScore cg.stock + priceScore cg.price + (-50) + 0 := by
    unfold score_candidate
    rw [hstock, hprice, hdb, hib]
  have key2 : score_candidate cg footprint comment =
      stockScore cg.stock + priceScore cg.price + 20 + 0 := by
    unfold score_candidate
    rw [hdg, hig]
  rw [key, key2]
  linarith

/-- Witness for C5 (amended): with equal stock and price, the Y5V
candidate scores strictly below the X7R candidate. -/
theorem dielectric_penalty_dominates_witness :
    score_candidate { cexPoorDielectric with stock := 1000, price := none }
        "C_0805_2012Metric" "10uF" <
      score_candidate { cexStableDielectric with stock := 1000, price := none }
        "C_0805_2012Metric" "10uF" :=
  dielectric_penalty_dominates "C_0805_2012Metric" "10uF"
    { cexPoorDielectric with stock := 1000, price := none }
    { cexStableDielectric with stock := 1000, price := none }
    rfl rfl rfl rfl rfl rfl

/-- C7: increasing a candidate's stock while holding every other field
fixed never decreases `_score_candidate`. -/
theorem score_monotone_in_stock (c : JlcpcbSearchResult)
    (footprint comment : String) (s : ℕ) (h : c.stock ≤ s) :
    score_candidate c footprint comment ≤
      score_candidate { c with stock := s } footprint comment := by
  unfold score_candidate
  exact add_le_add (add_le_add (add_le_add (stockScore_mono h) le_rfl) le_rfl)
    le_rfl

/-- Witness for C7: raising a concrete candidate's stock from 1000 to
50000 does not decrease its score. -/
theorem score_monotone_in_stock_witness :
    cexGood.stock ≤ 50000 ∧
    score_candidate cexGood "C_0402_1005Metric" "100nF" ≤
      score_candidate { cexGood with stock := 50000 }
        "C_0402_1005Metric" "100nF" :=
  ⟨by decide, score_monotone_in_stock cexGood "C_0402_1005Metric" "100nF"
    50000 (by decide)⟩

/-- C8: `build_search_query` is deterministic, and when the sanitised
value already contains the footprint's EIA code as a substring, the
result is exactly the no-append variant of the builder — the code token
is not appended a second time. -/
theorem build_query_deterministic_no_dup :
    (∀ v f, build_search_query v f = build_search_query v f) ∧
    (∀ v f code, eia_from_footprint f = some code →
      isSubstr code (sanitizeQuery v) = true →
      build_search_query v f = buildSearchQueryNoDup v f) := by
  refine ⟨fun v f => rfl, ?_⟩
  intro v f code hcode hsub
  unfold build_search_query buildSearchQueryNoDup
  by_cases h1 : is_ferrite_bead v f = true
  · rw [if_pos h1, if_pos h1]
  · rw [if_neg h1, if_neg h1]
    by_cases h2 : (connectorPrefixList.any fun p => strStartsWith f p) = true
    · rw [if_pos h2, if_pos h2]
    · rw [if_neg h2, if_neg h2]
      by_cases h3 : strStartsWith f "Fuse_" = true
      · rw [if_pos h3, if_pos h3]
        simp only [hcode, hsub, Bool.not_true, if_false]
        exact String.append_empty _
      · rw [if_neg h3, if_neg h3]
        dsimp only
        simp only [hcode]
        set B := if strStartsWith f "R_" && isBareNumber (sanitizeQuery v) then
          sanitizeQuery v ++ "ohm" else sanitizeQuery v with hB
        have hsubB : isSubstr code B = true := by
          rw [hB]
          split
          · exact isSubstr_append "ohm" hsub
          · exact hsub
        simp [hsubB]

/-- Witness for C8: the value `100nF 0402` already contains the `0402`
code, and the builder equals its no-append variant there. -/
theorem build_query_deterministic_no_dup_witness :
    build_search_query "100nF 0402" "C_0402_1005Metric" =
      buildSearchQueryNoDup "100nF 0402" "C_0402_1005Metric" :=
  build_query_deterministic_no_dup.2 "100nF 0402" "C_0402_1005Metric" "0402"
    rfl (by decide)

/-- C10 (code bug): the pydantic `JlcpcbSearchResult` model in
`bom_lookup/models.py` declares neither the `category` field the
resolver's category-rejection and ferrite-bead stages read nor the
`discontinued` field, even though the client's `_extract_components`
passes both as constructor arguments. -/
theorem jlcpcb_model_missing_category_discontinued :
    resolverCategoryAttr ∉ jlcpcbModelDeclaredFields ∧
    "discontinued" ∉ jlcpcbModelDeclaredFields ∧
    resolverCategoryAttr ∈ clientConstructorKwargs ∧
    "discontinued" ∈ clientConstructorKwargs := by decide

end Hw
